import Mathlib

/-!
Shallow embedding of the och-alerts reveal/death reconciliation engine.

The definitions below are translated from the TypeScript sources:
  src/monitor/stakingMonitor.ts  (enhanced version: handleStakingLog,
    loadUnrevealedTokens, setupEventSubscription, monitorStakingEvents)
  src/monitor/revealQueue.ts     (enqueueReveal, processQueueOnce)
  src/utils/metadata.ts          (fetchMetadataAndAlert, isHeroRevealed,
    setHeroRevealed)
  src/utils/detectReveal.ts      (detectAndStoreReveal)
  src/clients/wsClient.ts        (registerSubscription, onOpen replay,
    watchEventWithErrorHandling)
  src/monitor/endgameMonitor.ts  (handleDeathLog, setupDeathEventSubscription)

External effects are made explicit: the metadata HTTP endpoint is an oracle
`Nat -> FetchResult`, store-operation failures in the retry cycle are an
oracle `String -> DbOutcome`, and every tweet is recorded in an output list.
-/

namespace OchAlerts

/-- One entry of a metadata `attributes` array (`{trait_type, value}`). -/
structure HeroAttribute where
  trait_type : String
  value : Int
deriving Repr, DecidableEq

/-- Token metadata as served by `GET <base-uri>/<tokenId>`. -/
structure Metadata where
  name : String
  description : String
  image : String
  attributes : List HeroAttribute
deriving Repr, DecidableEq

/-- Outcome of one metadata HTTP fetch: decoded payload, or a thrown
transient error (network failure, timeout, non-2xx). -/
inductive FetchResult where
  | ok (m : Metadata)
  | err
deriving Repr, DecidableEq

/-- The sentinel placeholder image URL (`UNREVEALED_URL` in
src/monitor/stakingMonitor.ts). -/
def UNREVEALED_URL : String := "https://storage.onchainheroes.xyz/unrevealed/hero.gif"

/-- A document of the Mongo `Hero` collection (src/db/hero.model.ts).
Fields other than `tokenId` and `isRevealed` are optional because an
upsert by `setHeroRevealed` creates a document carrying only those two. -/
structure HeroRecord where
  tokenId : Nat
  name : Option String := none
  description : Option String := none
  image : Option String := none
  attributes : List HeroAttribute := []
  isRevealed : Bool := false
deriving Repr, DecidableEq

/-- The State Store: the `Hero` collection, keyed by `tokenId`. -/
abbrev Store := List HeroRecord

/-- `Hero.findOne({tokenId})`. -/
def Store.findHero (s : Store) (tid : Nat) : Option HeroRecord :=
  s.find? (fun h => h.tokenId == tid)

/-- Decimal accumulator for `numOf`. -/
def numOfAux : List Char → Nat → Nat
  | [], acc => acc
  | c :: cs, acc => numOfAux cs (acc * 10 + (c.toNat - 48))

/-- `Number(tokenIdStr)` for the decimal token-id strings used by the queue. -/
def numOf (s : String) : Nat := numOfAux s.data 0

/-- `isHeroRevealed` from src/utils/heroRevealCheck.ts: a missing record is
treated as unrevealed. -/
def isHeroRevealed (s : Store) (tid : Nat) : Bool :=
  match s.findHero tid with
  | none => false
  | some h => h.isRevealed

/-- `setHeroRevealed` from src/utils/heroRevealCheck.ts:
`findOneAndUpdate({tokenId}, {isRevealed: true}, {upsert: true})`. -/
def setHeroRevealed (s : Store) (tid : Nat) : Store :=
  if s.any (fun h => h.tokenId == tid) then
    s.map (fun h => if h.tokenId == tid then { h with isRevealed := true } else h)
  else
    s ++ [{ tokenId := tid, isRevealed := true }]

/-- One recorded `tweetReveal(tokenId, owner, imageUrl)` call. -/
structure Tweet where
  tokenId : String
  owner : String
  image : String
deriving Repr, DecidableEq

/-- `fetchMetadataAndAlert` from src/utils/metadata.ts.  The whole body is
inside `try { ... } catch { log }`, so the function never throws; it tweets
whenever the fetched metadata has a truthy (nonempty) `image`, with no
sentinel comparison and no level check.  Returns the tweets emitted. -/
def fetchMetadataAndAlert (fetch : Nat → FetchResult) (tokenId : String) (owner : String) :
    List Tweet :=
  match fetch (numOf tokenId) with
  | .err => []
  | .ok m =>
    if m.image != "" then [{ tokenId := tokenId, owner := owner, image := m.image }] else []

/-- A retry job of src/monitor/revealQueue.ts. -/
structure RevealJob where
  tokenId : String
  owner : String
  retryCount : Nat
deriving Repr, DecidableEq

/-- `MAX_RETRIES_PER_JOB` in src/monitor/revealQueue.ts. -/
def MAX_RETRIES_PER_JOB : Nat := 5

/-- `enqueueReveal` from src/monitor/revealQueue.ts: no-op when a job with
the same `(tokenId, owner)` pair is already pending, else push a job with
`retryCount = 0`. -/
def enqueueReveal (pending : List RevealJob) (tokenId owner : String) : List RevealJob :=
  if pending.any (fun job => job.tokenId == tokenId && job.owner == owner) then
    pending
  else
    pending ++ [{ tokenId := tokenId, owner := owner, retryCount := 0 }]

/-- Outcome oracle for the two store operations a queue job performs.
`failCheck` models `isHeroRevealed` throwing, `failSet` models
`setHeroRevealed` throwing; `ok` means both succeed. -/
inductive DbOutcome where
  | ok
  | failCheck
  | failSet
deriving Repr, DecidableEq

/-- The catch-branch of a queue job in `processQueueOnce`: increment the
retry count; keep the job for the next cycle when still below
`MAX_RETRIES_PER_JOB`, abandon it otherwise. -/
def retryOrAbandon (job : RevealJob) : Option RevealJob :=
  if job.retryCount + 1 < MAX_RETRIES_PER_JOB then
    some { job with retryCount := job.retryCount + 1 }
  else
    none

/-- One queue job of `processQueueOnce` (src/monitor/revealQueue.ts):
skip jobs whose token the store already shows revealed; otherwise run
`fetchMetadataAndAlert` (which never throws) and `setHeroRevealed`; a
thrown store operation lands in the catch branch (`retryOrAbandon`).
Returns the store, the tweets emitted, and the job pushed to
`nextPending` (if any). -/
def processJob (fetch : Nat → FetchResult) (db : String → DbOutcome) (s : Store)
    (job : RevealJob) : Store × List Tweet × Option RevealJob :=
  match db job.tokenId with
  | .failCheck => (s, [], retryOrAbandon job)
  | o =>
    if isHeroRevealed s (numOf job.tokenId) then
      (s, [], none)
    else
      let tweets := fetchMetadataAndAlert fetch job.tokenId job.owner
      match o with
      | .failSet => (s, tweets, retryOrAbandon job)
      | _ => (setHeroRevealed s (numOf job.tokenId), tweets, none)

/-- `processQueueOnce` from src/monitor/revealQueue.ts: process every job of
the snapshot `pending` (sequentialized; the single-logical-worker model of
the bounded-concurrency `Promise.all`), collecting the surviving retry jobs
into `nextPending`, which replaces the queue at the end of the cycle.
Returns the store, all tweets emitted, and the replaced queue. -/
def processQueueOnce (fetch : Nat → FetchResult) (db : String → DbOutcome) :
    Store → List RevealJob → Store × List Tweet × List RevealJob
  | s, [] => (s, [], [])
  | s, job :: rest =>
    let r := processJob fetch db s job
    let next := processQueueOnce fetch db r.1 rest
    (next.1, r.2.1 ++ next.2.1, r.2.2.toList ++ next.2.2)

/-- A full queue cycle together with calls to `enqueueReveal` that land
while the cycle is running: the pushes mutate the old `pendingReveals`
array, but the final assignment `pendingReveals = nextPending` replaces the
queue with the jobs computed from the snapshot, so the mid-cycle pushes are
discarded. -/
def cycleWithMidEnqueues (fetch : Nat → FetchResult) (db : String → DbOutcome) (s : Store)
    (snapshot : List RevealJob) (enqs : List (String × String)) :
    Store × List Tweet × List RevealJob :=
  let _pendingDuringCycle := enqs.foldl (fun q p => enqueueReveal q p.1 p.2) snapshot
  processQueueOnce fetch db s snapshot

/-- Two jobs carry different `(tokenId, owner)` pairs. -/
def distinctPair (a b : RevealJob) : Prop :=
  ¬(a.tokenId = b.tokenId ∧ a.owner = b.owner)

/-- No two queued jobs share a `(tokenId, owner)` pair. -/
def queueDedup (pending : List RevealJob) : Prop :=
  List.Pairwise distinctPair pending

/-- In-memory `unrevealedTokensSet`, live-path tweets, and the State Store,
as seen by src/monitor/stakingMonitor.ts. -/
structure MonitorState where
  store : Store
  unrevealedTokensSet : List Nat
  tweets : List Tweet
deriving Repr, DecidableEq

/-- `Set.add`: insert without duplication. -/
def setAdd (ws : List Nat) (t : Nat) : List Nat :=
  if ws.contains t then ws else ws ++ [t]

/-- `Set.delete`. -/
def setDelete (ws : List Nat) (t : Nat) : List Nat :=
  ws.filter (fun x => x != t)

/-- The trait name the level tie-break looks for. -/
def SEASON1_LEVEL : String := "Season 1 Level"

/-- `metadata?.attributes?.find(attr => attr.trait_type === "Season 1 Level")`,
projected to its `value`. -/
def levelOf (m : Metadata) : Option Int :=
  (m.attributes.find? (fun a => a.trait_type == SEASON1_LEVEL)).map (fun a => a.value)

/-- JavaScript truthiness of a numeric level. -/
def intTruthy (v : Int) : Bool := v != 0

/-- `level && level > 1` for the optional level value. -/
def levelSuppress (level : Option Int) : Bool :=
  match level with
  | some v => intTruthy v && decide (1 < v)
  | none => false

/-- The body of the `setTimeout` callback of `handleStakingLog`
(src/monitor/stakingMonitor.ts, enhanced version): fetch metadata; a thrown
fetch is caught (token stays in the set, nothing else happens); the
sentinel placeholder image is a no-op; otherwise tweet unless the
"Season 1 Level" value is truthy and greater than 1, then mark the hero
revealed in the store and delete it from the in-memory set. -/
def stakingCallback (fetch : Nat → FetchResult) (owner : String) (tokenIdNum : Nat)
    (st : MonitorState) : MonitorState :=
  match fetch tokenIdNum with
  | .err => st
  | .ok metadata =>
    if metadata.image == UNREVEALED_URL then st
    else
      let tweets :=
        if levelSuppress (levelOf metadata) then st.tweets
        else st.tweets ++
          [{ tokenId := toString tokenIdNum, owner := owner, image := metadata.image }]
      { store := setHeroRevealed st.store tokenIdNum,
        unrevealedTokensSet := setDelete st.unrevealedTokensSet tokenIdNum,
        tweets := tweets }

/-- `handleStakingLog` for one delivered log, run to completion before the
next delivery: the synchronous membership check on `unrevealedTokensSet`
followed (15 s later) by the callback. -/
def handleStakingLog (fetch : Nat → FetchResult) (owner : String) (tokenIdNum : Nat)
    (st : MonitorState) : MonitorState :=
  if st.unrevealedTokensSet.contains tokenIdNum then
    stakingCallback fetch owner tokenIdNum st
  else st

/-- Two deliveries of the same "Staked" log within the settle window: both
synchronous membership checks run at arrival time, before either scheduled
callback has fired; the two callbacks then run in order.  This is the
execution the code produces for duplicate delivery, since the set deletion
happens only inside the callback, 15 seconds after the check. -/
def deliverStakedTwiceConcurrently (fetch : Nat → FetchResult) (owner : String)
    (tokenIdNum : Nat) (st : MonitorState) : MonitorState :=
  let scheduledFirst := st.unrevealedTokensSet.contains tokenIdNum
  let scheduledSecond := st.unrevealedTokensSet.contains tokenIdNum
  let st1 := if scheduledFirst then stakingCallback fetch owner tokenIdNum st else st
  if scheduledSecond then stakingCallback fetch owner tokenIdNum st1 else st1

/-- `loadUnrevealedTokens` (src/monitor/stakingMonitor.ts): add to the
in-memory set every token whose store record has `isRevealed = false`.
The set is not cleared first. -/
def loadUnrevealedTokens (st : MonitorState) : MonitorState :=
  { st with
    unrevealedTokensSet :=
      st.store.foldl
        (fun ws h => if h.isRevealed then ws else setAdd ws h.tokenId)
        st.unrevealedTokensSet }

/-- Does `needle` occur as a contiguous run inside `haystack`
(JavaScript `String.prototype.includes`)? -/
def containsSub (needle : List Char) : List Char → Bool
  | [] => needle.isEmpty
  | c :: rest => needle.isPrefixOf (c :: rest) || containsSub needle rest

/-- `detectAndStoreReveal` from src/utils/detectReveal.ts: fetch metadata;
on a thrown fetch return false; when the image still contains the substring
"unrevealed" make no store write and return false; otherwise upsert the
full record with `isRevealed = true` and return true. -/
def detectAndStoreReveal (fetch : Nat → FetchResult) (s : Store) (tid : Nat) :
    Store × Bool :=
  match fetch tid with
  | .err => (s, false)
  | .ok m =>
    if containsSub "unrevealed".data m.image.data then (s, false)
    else
      let r : HeroRecord :=
        { tokenId := tid, name := some m.name, description := some m.description,
          image := some m.image, attributes := m.attributes, isRevealed := true }
      if s.any (fun h => h.tokenId == tid) then
        (s.map (fun h => if h.tokenId == tid then r else h), true)
      else
        (s ++ [r], true)

/-- The operations of the system that touch the store, the working set or
the queue: a live "Staked" delivery, a retry-queue cycle, a
`detectAndStoreReveal` re-fetch, the bootstrap/reconnect reload, a bare
`setHeroRevealed`, and an `enqueueReveal`. -/
inductive SysOp where
  | liveStaked (fetch : Nat → FetchResult) (owner : String) (tokenIdNum : Nat)
  | queueCycle (fetch : Nat → FetchResult) (db : String → DbOutcome)
  | detect (fetch : Nat → FetchResult) (tid : Nat)
  | bootstrapReload
  | setRevealed (tid : Nat)
  | enqueue (tokenId owner : String)

/-- Whole-system state: store, working set, retry queue, emitted tweets. -/
structure SysState where
  store : Store
  unrevealedTokensSet : List Nat
  pendingReveals : List RevealJob
  tweets : List Tweet

/-- Apply one system operation. -/
def applyOp (op : SysOp) (st : SysState) : SysState :=
  match op with
  | .liveStaked fetch owner tid =>
    let m := handleStakingLog fetch owner tid
      { store := st.store, unrevealedTokensSet := st.unrevealedTokensSet, tweets := st.tweets }
    { st with store := m.store, unrevealedTokensSet := m.unrevealedTokensSet,
              tweets := m.tweets }
  | .queueCycle fetch db =>
    let r := processQueueOnce fetch db st.store st.pendingReveals
    { st with store := r.1, tweets := st.tweets ++ r.2.1, pendingReveals := r.2.2 }
  | .detect fetch tid =>
    { st with store := (detectAndStoreReveal fetch st.store tid).1 }
  | .bootstrapReload =>
    let m := loadUnrevealedTokens
      { store := st.store, unrevealedTokensSet := st.unrevealedTokensSet, tweets := st.tweets }
    { st with unrevealedTokensSet := m.unrevealedTokensSet }
  | .setRevealed tid =>
    { st with store := setHeroRevealed st.store tid }
  | .enqueue tokenId owner =>
    { st with pendingReveals := enqueueReveal st.pendingReveals tokenId owner }

/-- Run a sequence of system operations. -/
def runOps (ops : List SysOp) (st : SysState) : SysState :=
  ops.foldl (fun s op => applyOp op s) st

/-- One registered reconnect callback of the Subscription Registry
(`activeSubscriptions` in src/clients/wsClient.ts).  `id` tags the callback
so invocations can be observed; `run` returning `none` models the callback
throwing. -/
structure SubCallback where
  id : Nat
  run : MonitorState → Option MonitorState

/-- `registerSubscription`: push onto `activeSubscriptions`. -/
def registerSubscription (subs : List SubCallback) (cb : SubCallback) : List SubCallback :=
  subs ++ [cb]

/-- The `onOpen` replay loop of src/clients/wsClient.ts:
`activeSubscriptions.forEach(sub => { try { sub() } catch { log } })`.
Returns the resulting state and the ordered list of invoked callback ids. -/
def restoreSubscriptions (subs : List SubCallback) (st : MonitorState) :
    MonitorState × List Nat :=
  subs.foldl
    (fun acc sub =>
      match sub.run acc.1 with
      | some s2 => (s2, acc.2 ++ [sub.id])
      | none => (acc.1, acc.2 ++ [sub.id]))
    (st, [])

/-- `safeOnLogs` of `watchEventWithErrorHandling`: run the caller's
`onLogs`; on a throw, log and run the caller's `onError` (when provided)
inside its own try/catch.  `console.error` is effect-free here. -/
def safeOnLogs (onLogs : Except String Unit)
    (onError : Option (String → Except String Unit)) : Except String Unit :=
  match onLogs with
  | .ok _ => .ok ()
  | .error e =>
    match onError with
    | none => .ok ()
    | some f =>
      match f e with
      | .ok _ => .ok ()
      | .error _ => .ok ()

/-- `safeOnError` of `watchEventWithErrorHandling`: log, then run the
caller's `onError` (when provided) inside a try/catch; never rethrow. -/
def safeOnError (onError : Option (String → Except String Unit)) (e : String) :
    Except String Unit :=
  match onError with
  | none => .ok ()
  | some f =>
    match f e with
    | .ok _ => .ok ()
    | .error _ => .ok ()

/-- A decoded `Staked` log (`log.args`). -/
structure StakedLog where
  owner : String
  tokenId : Nat
deriving Repr, DecidableEq

/-- The per-batch loop of `setupEventSubscription`
(src/monitor/stakingMonitor.ts): each log is handled inside its own
try/catch, so one throwing log (`handlerThrows`) is skipped and its
siblings still run. -/
def processStakingLogs (fetch : Nat → FetchResult) (handlerThrows : StakedLog → Bool)
    (logs : List StakedLog) (st : MonitorState) : MonitorState :=
  logs.foldl
    (fun s l => if handlerThrows l then s else handleStakingLog fetch l.owner l.tokenId s)
    st

/-- One recorded `tweetDeath(tokenId, image?, level?)` call. -/
structure DeathTweet where
  tokenId : String
  image : Option String
  level : Option Int
deriving Repr, DecidableEq

/-- `handleDeathLog` from src/monitor/endgameMonitor.ts: fetch the hero's
metadata; a thrown fetch is caught and the event is dropped; otherwise
tweet an obituary carrying the image and the "Season 1 Level" value. -/
def handleDeathLog (fetch : Nat → FetchResult) (heroIdNum : Nat)
    (deaths : List DeathTweet) : List DeathTweet :=
  match fetch heroIdNum with
  | .err => deaths
  | .ok m =>
    deaths ++ [{ tokenId := toString heroIdNum, image := some m.image, level := levelOf m }]

/-- The per-batch loop of `setupDeathEventSubscription`
(src/monitor/endgameMonitor.ts), with the same per-log try/catch. -/
def processDeathLogs (fetch : Nat → FetchResult) (handlerThrows : Nat → Bool)
    (logs : List Nat) (deaths : List DeathTweet) : List DeathTweet :=
  logs.foldl
    (fun d i => if handlerThrows i then d else handleDeathLog fetch i d)
    deaths

/-- A queue job in `processQueueOnce` lands in the catch branch exactly
when a store operation throws: always for `failCheck`, and for `failSet`
only when the already-revealed skip did not fire first. -/
def jobThrew (db : String → DbOutcome) (s : Store) (job : RevealJob) : Bool :=
  match db job.tokenId with
  | .failCheck => true
  | .failSet => !isHeroRevealed s (numOf job.tokenId)
  | .ok => false

/-- The queue replacing a cycle, written the way claim C10 reads: walk the
snapshot, keep exactly the jobs whose processing threw, with retry count
incremented, dropping those that reached the ceiling. -/
def retriesOfCycle (fetch : Nat → FetchResult) (db : String → DbOutcome) :
    Store → List RevealJob → List RevealJob
  | _, [] => []
  | s, job :: rest =>
    (if jobThrew db s job then (retryOrAbandon job).toList else []) ++
      retriesOfCycle fetch db (processJob fetch db s job).1 rest

/-- The claim C6: enqueueReveal deduplicates on the `(tokenId, owner)` pair:
a call for an already-pending pair leaves the queue unchanged, a call for a
fresh pair appends exactly one job with retry count 0, and consequently the
queue never holds two jobs with the same pair. -/
theorem c6_enqueue_dedup (pending : List RevealJob) (tokenId owner : String) :
    ((∃ j ∈ pending, j.tokenId = tokenId ∧ j.owner = owner) →
      enqueueReveal pending tokenId owner = pending) ∧
    ((¬∃ j ∈ pending, j.tokenId = tokenId ∧ j.owner = owner) →
      enqueueReveal pending tokenId owner =
        pending ++ [{ tokenId := tokenId, owner := owner, retryCount := 0 }]) ∧
    (queueDedup pending → queueDedup (enqueueReveal pending tokenId owner)) := by
  have hany : (pending.any (fun job => job.tokenId == tokenId && job.owner == owner)) = true ↔
      ∃ j ∈ pending, j.tokenId = tokenId ∧ j.owner = owner := by
    simp [List.any_eq_true]
  refine ⟨fun h => ?_, fun h => ?_, fun h => ?_⟩
  · simp [enqueueReveal, hany.2 h]
  · have : (pending.any (fun job => job.tokenId == tokenId && job.owner == owner)) = false := by
      cases hb : pending.any (fun job => job.tokenId == tokenId && job.owner == owner) with
      | false => rfl
      | true => exact absurd (hany.1 hb) h
    simp [enqueueReveal, this]
  · by_cases hb : (pending.any (fun job => job.tokenId == tokenId && job.owner == owner)) = true
    · simpa [enqueueReveal, hb] using h
    · have hb' : (pending.any (fun job => job.tokenId == tokenId && job.owner == owner)) = false := by
        cases hx : pending.any (fun job => job.tokenId == tokenId && job.owner == owner) with
        | false => rfl
        | true => exact absurd hx hb
      have hnot : ∀ j ∈ pending, distinctPair j { tokenId := tokenId, owner := owner, retryCount := 0 } := by
        intro j hj hcontra
        exact hb (hany.2 ⟨j, hj, hcontra.1, hcontra.2⟩)
      simp only [enqueueReveal, hb', Bool.false_eq_true, if_false]
      exact List.pairwise_append.2 ⟨h, List.pairwise_singleton _ _, by
        intro a ha b hb2
        have hb3 : b = { tokenId := tokenId, owner := owner, retryCount := 0 } := by
          simpa using hb2
        subst hb3
        exact hnot a ha⟩

/-- Concrete run of c6_enqueue_dedup on a one-job queue. -/
theorem c6_enqueue_dedup_witness :
    enqueueReveal [{ tokenId := "5", owner := "0xA", retryCount := 2 }] "5" "0xA" =
      [{ tokenId := "5", owner := "0xA", retryCount := 2 }] :=
  (c6_enqueue_dedup [{ tokenId := "5", owner := "0xA", retryCount := 2 }] "5" "0xA").1
    ⟨{ tokenId := "5", owner := "0xA", retryCount := 2 }, by simp, rfl, rfl⟩

theorem findHero_cons (x : HeroRecord) (l : Store) (tid : Nat) :
    Store.findHero (x :: l) tid =
      if x.tokenId == tid then some x else Store.findHero l tid := by
  cases hx : x.tokenId == tid <;> simp [Store.findHero, List.find?, hx]

theorem isHeroRevealed_cons (x : HeroRecord) (l : Store) (tid : Nat) :
    isHeroRevealed (x :: l) tid =
      if x.tokenId == tid then x.isRevealed else isHeroRevealed l tid := by
  rw [isHeroRevealed, findHero_cons]
  cases hx : x.tokenId == tid <;> simp [hx, isHeroRevealed]

theorem isHeroRevealed_map_mono (f : HeroRecord → HeroRecord)
    (hid : ∀ h, (f h).tokenId = h.tokenId)
    (hrev : ∀ h, h.isRevealed = true → (f h).isRevealed = true) :
    ∀ (s : Store) (tid : Nat), isHeroRevealed s tid = true →
      isHeroRevealed (s.map f) tid = true
  | [], tid, h => by simp [isHeroRevealed, Store.findHero] at h
  | x :: l, tid, h => by
    rw [List.map_cons, isHeroRevealed_cons, hid]
    rw [isHeroRevealed_cons] at h
    cases hx : x.tokenId == tid with
    | true =>
      rw [hx] at h
      simp only [if_true]
      exact hrev x (by simpa using h)
    | false =>
      rw [hx] at h
      simp only [Bool.false_eq_true, if_false]
      exact isHeroRevealed_map_mono f hid hrev l tid (by simpa using h)

theorem isHeroRevealed_append_left (s t : Store) (tid : Nat)
    (h : isHeroRevealed s tid = true) : isHeroRevealed (s ++ t) tid = true := by
  unfold isHeroRevealed Store.findHero at h ⊢
  rw [List.find?_append]
  cases hf : s.find? (fun h => h.tokenId == tid) with
  | none => rw [hf] at h; simp at h
  | some r => rw [hf] at h; exact h

theorem setHeroRevealed_mono (s : Store) (a tid : Nat)
    (h : isHeroRevealed s tid = true) :
    isHeroRevealed (setHeroRevealed s a) tid = true := by
  unfold setHeroRevealed
  by_cases hb : (s.any (fun h => h.tokenId == a)) = true
  · rw [if_pos hb]
    exact isHeroRevealed_map_mono _
      (fun h => by by_cases hh : (h.tokenId == a) = true <;> simp [hh])
      (fun h hr => by by_cases hh : (h.tokenId == a) = true <;> simp [hh, hr])
      s tid h
  · rw [if_neg hb]
    exact isHeroRevealed_append_left s _ tid h

theorem revealed_map_self : ∀ (s : Store) (tid : Nat),
    s.any (fun h => h.tokenId == tid) = true →
    isHeroRevealed
      (s.map (fun h => if h.tokenId == tid then { h with isRevealed := true } else h))
      tid = true
  | [], _, h => by simp at h
  | x :: l, tid, h => by
    rw [List.map_cons, isHeroRevealed_cons]
    by_cases hx : (x.tokenId == tid) = true
    · simp [hx]
    · have hb : (x.tokenId == tid) = false := by
        cases hxx : x.tokenId == tid with
        | false => rfl
        | true => exact absurd hxx hx
      have hl : l.any (fun h => h.tokenId == tid) = true := by
        rcases List.any_eq_true.1 h with ⟨y, hy, hpy⟩
        rcases List.mem_cons.1 hy with rfl | hy2
        · exact absurd hpy (by simp [hb])
        · exact List.any_eq_true.2 ⟨y, hy2, hpy⟩
      simpa [hb] using revealed_map_self l tid hl

theorem setHeroRevealed_self (s : Store) (tid : Nat) :
    isHeroRevealed (setHeroRevealed s tid) tid = true := by
  unfold setHeroRevealed
  by_cases hb : (s.any (fun h => h.tokenId == tid)) = true
  · rw [if_pos hb]
    exact revealed_map_self s tid hb
  · rw [if_neg hb]
    unfold isHeroRevealed Store.findHero
    rw [List.find?_append]
    have hn : s.find? (fun h => h.tokenId == tid) = none := by
      rw [List.find?_eq_none]
      intro x hx
      have := List.any_eq_false.1 (Bool.eq_false_iff.2 (fun hc => hb hc)) x hx
      simpa using this
    rw [hn]
    simp [List.find?]

theorem findHero_setHeroRevealed_notfound (s : Store) (tid : Nat)
    (h : s.any (fun h => h.tokenId == tid) = false) :
    Store.findHero (setHeroRevealed s tid) tid =
      some { tokenId := tid, isRevealed := true } := by
  unfold setHeroRevealed
  rw [if_neg (by simp [h])]
  unfold Store.findHero
  rw [List.find?_append]
  have hn : s.find? (fun h => h.tokenId == tid) = none := by
    rw [List.find?_eq_none]
    intro x hx
    have := List.any_eq_false.1 h x hx
    simpa using this
  rw [hn]
  simp [List.find?]

theorem processJob_store_mono (fetch : Nat → FetchResult) (db : String → DbOutcome)
    (s : Store) (job : RevealJob) (tid : Nat)
    (h : isHeroRevealed s tid = true) :
    isHeroRevealed (processJob fetch db s job).1 tid = true := by
  unfold processJob
  cases hdb : db job.tokenId with
  | failCheck => exact h
  | ok =>
    by_cases hr : isHeroRevealed s (numOf job.tokenId) = true
    · simpa [hr] using h
    · simp only [Bool.not_eq_true] at hr
      simpa [hr] using setHeroRevealed_mono s _ tid h
  | failSet =>
    by_cases hr : isHeroRevealed s (numOf job.tokenId) = true
    · simpa [hr] using h
    · simp only [Bool.not_eq_true] at hr
      simpa [hr] using h

theorem processQueueOnce_store_mono (fetch : Nat → FetchResult) (db : String → DbOutcome) :
    ∀ (pending : List RevealJob) (s : Store) (tid : Nat),
      isHeroRevealed s tid = true →
      isHeroRevealed (processQueueOnce fetch db s pending).1 tid = true
  | [], _, _, h => h
  | job :: rest, s, tid, h => by
    have h1 := processJob_store_mono fetch db s job tid h
    simpa [processQueueOnce] using
      processQueueOnce_store_mono fetch db rest (processJob fetch db s job).1 tid h1

theorem detect_store_mono (fetch : Nat → FetchResult) (s : Store) (a tid : Nat)
    (h : isHeroRevealed s tid = true) :
    isHeroRevealed (detectAndStoreReveal fetch s a).1 tid = true := by
  unfold detectAndStoreReveal
  cases hf : fetch a with
  | err => exact h
  | ok m =>
    by_cases hu : (containsSub "unrevealed".data m.image.data) = true
    · simpa [hu] using h
    · simp only [Bool.not_eq_true] at hu
      by_cases hb : (s.any (fun h => h.tokenId == a)) = true
      · simp only [hu, Bool.false_eq_true, if_false, hb, if_true]
        exact isHeroRevealed_map_mono _
          (fun hrec => by
            by_cases hh : (hrec.tokenId == a) = true
            · have he : hrec.tokenId = a := by simpa using hh
              simp [hh, he]
            · simp [hh])
          (fun hrec hr => by by_cases hh : (hrec.tokenId == a) = true <;> simp [hh, hr])
          s tid h
      · simp only [hu, Bool.false_eq_true, if_false, hb]
        exact isHeroRevealed_append_left s _ tid h

theorem stakingCallback_store_mono (fetch : Nat → FetchResult) (owner : String)
    (a tid : Nat) (st : MonitorState) (h : isHeroRevealed st.store tid = true) :
    isHeroRevealed (stakingCallback fetch owner a st).store tid = true := by
  unfold stakingCallback
  cases hf : fetch a with
  | err => exact h
  | ok m =>
    by_cases hu : (m.image == UNREVEALED_URL) = true
    · simpa [hu] using h
    · simp only [Bool.not_eq_true] at hu
      simpa [hu] using setHeroRevealed_mono st.store a tid h

theorem handleStakingLog_store_mono (fetch : Nat → FetchResult) (owner : String)
    (a tid : Nat) (st : MonitorState) (h : isHeroRevealed st.store tid = true) :
    isHeroRevealed (handleStakingLog fetch owner a st).store tid = true := by
  unfold handleStakingLog
  by_cases hc : a ∈ st.unrevealedTokensSet
  · simpa [hc] using stakingCallback_store_mono fetch owner a tid st h
  · simpa [hc] using h

theorem applyOp_store_mono (op : SysOp) (st : SysState) (tid : Nat)
    (h : isHeroRevealed st.store tid = true) :
    isHeroRevealed (applyOp op st).store tid = true := by
  cases op with
  | liveStaked fetch owner a =>
    simpa [applyOp] using handleStakingLog_store_mono fetch owner a tid _ h
  | queueCycle fetch db =>
    simpa [applyOp] using
      processQueueOnce_store_mono fetch db st.pendingReveals st.store tid h
  | detect fetch a => simpa [applyOp] using detect_store_mono fetch st.store a tid h
  | bootstrapReload => simpa [applyOp] using h
  | setRevealed a => simpa [applyOp] using setHeroRevealed_mono st.store a tid h
  | enqueue t o => simpa [applyOp] using h

/-- Claim C2: once the store persists `revealed = true` for a token, no
subsequent operation of the system (live staking check, retry-queue cycle,
metadata re-fetch, bootstrap reload, enqueue, bare set) ever resets it to
`false`: revealed-ness is preserved by every sequence of operations. -/
theorem c2_revealed_monotone (ops : List SysOp) (st : SysState) (tid : Nat)
    (h : isHeroRevealed st.store tid = true) :
    isHeroRevealed (runOps ops st).store tid = true := by
  induction ops generalizing st with
  | nil => exact h
  | cons op rest ih =>
    have : runOps (op :: rest) st = runOps rest (applyOp op st) := by
      simp [runOps]
    rw [this]
    exact ih _ (applyOp_store_mono op st tid h)

/-- Concrete run of c2_revealed_monotone: token 5 stays revealed across a
bootstrap reload followed by a queue cycle with a failing fetch. -/
theorem c2_revealed_monotone_witness :
    isHeroRevealed
      (runOps [SysOp.bootstrapReload, SysOp.queueCycle (fun _ => FetchResult.err) (fun _ => DbOutcome.ok)]
        { store := [{ tokenId := 5, isRevealed := true }],
          unrevealedTokensSet := [], pendingReveals := [], tweets := [] }).store 5 = true :=
  c2_revealed_monotone _ _ 5 (by rfl)

/-- Claim C1 is false on the code: delivering the same "Staked" log for
token 42 twice within the settle window passes both in-memory set checks
(the set deletion only happens inside the delayed callback), so both
callbacks run and tweetReveal is called twice, not at most once.  The live
path never consults the store's revealed flag. -/
theorem c1_double_delivery_two_tweets :
    (deliverStakedTwiceConcurrently
        (fun _ => FetchResult.ok
          { name := "Hero", description := "", image := "https://img/hero42.png",
            attributes := [] })
        "0xAA" 42
        { store := [{ tokenId := 42 }], unrevealedTokensSet := [42], tweets := [] }).tweets.length
      = 2 ∧
    isHeroRevealed
      (deliverStakedTwiceConcurrently
        (fun _ => FetchResult.ok
          { name := "Hero", description := "", image := "https://img/hero42.png",
            attributes := [] })
        "0xAA" 42
        { store := [{ tokenId := 42 }], unrevealedTokensSet := [42], tweets := [] }).store 42
      = true := by
  constructor <;> decide

/-- Claim C5 is false on the code: a transient fetch failure inside the
retry cycle is swallowed by fetchMetadataAndAlert's internal catch, so
processQueueOnce proceeds to setHeroRevealed: the token is marked revealed
in the store, the job is dropped without incrementing its retry count, and
nothing is re-enqueued. -/
theorem c5_fetch_failure_marks_revealed :
    processQueueOnce (fun _ => FetchResult.err) (fun _ => DbOutcome.ok) []
        [{ tokenId := "7", owner := "0xA", retryCount := 0 }] =
      ([{ tokenId := 7, isRevealed := true }], [], []) := by
  decide

/-- Counterexample to claim C3 on the retry-queue path: a fetched image
equal to the sentinel placeholder is nonempty, so fetchMetadataAndAlert
tweets it and processQueueOnce writes revealed = true to the store and
drops the job; the claim requires no store write and no notification on
every path. -/
theorem c3_counterexample_queue_placeholder :
    processQueueOnce
        (fun _ => FetchResult.ok
          { name := "", description := "", image := UNREVEALED_URL, attributes := [] })
        (fun _ => DbOutcome.ok) [] [{ tokenId := "9", owner := "0xB", retryCount := 0 }] =
      ([{ tokenId := 9, isRevealed := true }],
       [{ tokenId := "9", owner := "0xB", image := UNREVEALED_URL }], []) := by
  decide

/-- Counterexample to claim C4 on the retry-queue path: a resolved token
with "Season 1 Level" = 5 still produces one tweet there, because
fetchMetadataAndAlert has no level check; the claim requires zero
notifications on every path that resolves the token. -/
theorem c4_counterexample_queue_level :
    (processQueueOnce
        (fun _ => FetchResult.ok
          { name := "", description := "", image := "https://img/h3.png",
            attributes := [{ trait_type := "Season 1 Level", value := 5 }] })
        (fun _ => DbOutcome.ok) [] [{ tokenId := "3", owner := "0xC", retryCount := 0 }]).2.1
      = [{ tokenId := "3", owner := "0xC", image := "https://img/h3.png" }] := by
  decide

/-- Counterexample to claim C7: for a token with no record in the store,
loadUnrevealedTokens (a find on isRevealed = false) adds nothing to the
Working Set, so a "Staked" log for token 42 is ignored: no tweet and no
store record, where the claim expects one notification and a revealed
record. -/
theorem c7_counterexample_unknown_token_ignored :
    handleStakingLog
        (fun _ => FetchResult.ok
          { name := "Hero", description := "", image := "https://img/hero123.png",
            attributes := [] })
        "0xAA" 42
        (loadUnrevealedTokens { store := [], unrevealedTokensSet := [], tweets := [] }) =
      { store := [], unrevealedTokensSet := [], tweets := [] } := by
  decide

/-- Counterexample to claim C8: the reconnect reload does not rebuild the
Working Set from the store; it only adds the store's unrevealed tokens to
the existing set.  A stale pre-disconnect member (token 5, revealed in the
store) survives the reload even though the store's revealed = false scan is
empty. -/
theorem c8_counterexample_stale_set_survives :
    (loadUnrevealedTokens
        { store := [{ tokenId := 5, isRevealed := true }], unrevealedTokensSet := [5],
          tweets := [] }).unrevealedTokensSet = [5] ∧
    List.filter (fun h => !h.isRevealed)
        ([{ tokenId := 5, isRevealed := true }] : Store) = [] := by
  constructor <;> decide

/-- Claim C3 amended: on the LIVE staking path a metadata image equal to
the sentinel placeholder is a complete no-op: no store write, no
notification, the token remains in the Working Set and no retry state is
touched (the whole state is unchanged).  The retry-queue path does not
check the sentinel (see the counterexample). -/
theorem c3_live_placeholder_noop (st : MonitorState) (fetch : Nat → FetchResult)
    (owner : String) (tid : Nat) (m : Metadata)
    (hf : fetch tid = FetchResult.ok m) (hi : m.image = UNREVEALED_URL) :
    handleStakingLog fetch owner tid st = st := by
  unfold handleStakingLog stakingCallback
  rw [hf]
  simp [hi]

/-- Concrete run of c3_live_placeholder_noop at token 9. -/
theorem c3_live_placeholder_noop_witness :
    handleStakingLog
        (fun _ => FetchResult.ok
          { name := "", description := "", image := UNREVEALED_URL, attributes := [] })
        "0xB" 9 { store := [{ tokenId := 9 }], unrevealedTokensSet := [9], tweets := [] } =
      { store := [{ tokenId := 9 }], unrevealedTokensSet := [9], tweets := [] } :=
  c3_live_placeholder_noop _ _ "0xB" 9 _ rfl rfl

/-- Claim C4 amended: on the LIVE staking path, a resolved token whose
"Season 1 Level" value is greater than 1 is recorded as revealed and
removed from the Working Set, with no tweet.  The retry-queue path ignores
the level attribute (see the counterexample). -/
theorem c4_live_level_suppression (st : MonitorState) (fetch : Nat → FetchResult)
    (owner : String) (tid : Nat) (m : Metadata) (v : Int)
    (hmem : tid ∈ st.unrevealedTokensSet)
    (hf : fetch tid = FetchResult.ok m)
    (hi : m.image ≠ UNREVEALED_URL)
    (hl : levelOf m = some v) (hv : 1 < v) :
    (handleStakingLog fetch owner tid st).tweets = st.tweets ∧
    isHeroRevealed (handleStakingLog fetch owner tid st).store tid = true ∧
    tid ∉ (handleStakingLog fetch owner tid st).unrevealedTokensSet := by
  have hL : handleStakingLog fetch owner tid st = stakingCallback fetch owner tid st := by
    unfold handleStakingLog
    simp [hmem]
  have hiB : (m.image == UNREVEALED_URL) = false := by
    simp [hi]
  have hsup : levelSuppress (levelOf m) = true := by
    rw [hl]
    unfold levelSuppress intTruthy
    have h0 : v ≠ 0 := by omega
    simp [h0, hv]
  have hC : stakingCallback fetch owner tid st =
      { store := setHeroRevealed st.store tid,
        unrevealedTokensSet := setDelete st.unrevealedTokensSet tid,
        tweets := st.tweets } := by
    unfold stakingCallback
    rw [hf]
    simp [hiB, hsup]
  rw [hL, hC]
  refine ⟨rfl, setHeroRevealed_self st.store tid, ?_⟩
  unfold setDelete
  simp

/-- Concrete run of c4_live_level_suppression at token 3, level 5. -/
theorem c4_live_level_suppression_witness :
    (handleStakingLog
        (fun _ => FetchResult.ok
          { name := "", description := "", image := "https://img/h3.png",
            attributes := [{ trait_type := "Season 1 Level", value := 5 }] })
        "0xC" 3 { store := [], unrevealedTokensSet := [3], tweets := [] }).tweets = [] ∧
    isHeroRevealed
      (handleStakingLog
        (fun _ => FetchResult.ok
          { name := "", description := "", image := "https://img/h3.png",
            attributes := [{ trait_type := "Season 1 Level", value := 5 }] })
        "0xC" 3 { store := [], unrevealedTokensSet := [3], tweets := [] }).store 3 = true ∧
    3 ∉ (handleStakingLog
        (fun _ => FetchResult.ok
          { name := "", description := "", image := "https://img/h3.png",
            attributes := [{ trait_type := "Season 1 Level", value := 5 }] })
        "0xC" 3 { store := [], unrevealedTokensSet := [3], tweets := [] }).unrevealedTokensSet :=
  c4_live_level_suppression _ _ "0xC" 3 _ 5 (by simp) rfl (by decide) rfl (by decide)

theorem mem_setAdd (ws : List Nat) (a t : Nat) :
    t ∈ setAdd ws a ↔ t ∈ ws ∨ t = a := by
  unfold setAdd
  by_cases hc : a ∈ ws
  · rw [if_pos (by simpa using hc)]
    constructor
    · exact Or.inl
    · rintro (h | rfl)
      · exact h
      · exact hc
  · rw [if_neg (by simpa using hc)]
    simp

theorem mem_loadFold : ∀ (store : Store) (ws : List Nat) (t : Nat),
    (t ∈ store.foldl (fun ws h => if h.isRevealed then ws else setAdd ws h.tokenId) ws ↔
      t ∈ ws ∨ ∃ h ∈ store, h.isRevealed = false ∧ h.tokenId = t)
  | [], ws, t => by simp
  | x :: l, ws, t => by
    rw [List.foldl_cons]
    by_cases hx : x.isRevealed = true
    · rw [if_pos hx, mem_loadFold l ws t]
      constructor
      · rintro (h1 | ⟨h2, hh2, hr2, ht2⟩)
        · exact Or.inl h1
        · exact Or.inr ⟨h2, List.mem_cons_of_mem _ hh2, hr2, ht2⟩
      · rintro (h1 | ⟨h2, hh2, hr2, ht2⟩)
        · exact Or.inl h1
        · rcases List.mem_cons.1 hh2 with rfl | hh3
          · rw [hx] at hr2
            exact absurd hr2 (by simp)
          · exact Or.inr ⟨h2, hh3, hr2, ht2⟩
    · have hxf : x.isRevealed = false := by
        cases hxx : x.isRevealed with
        | false => rfl
        | true => exact absurd hxx hx
      rw [if_neg hx, mem_loadFold l (setAdd ws x.tokenId) t]
      rw [mem_setAdd]
      constructor
      · rintro ((h1 | h1) | ⟨h2, hh2, hr2, ht2⟩)
        · exact Or.inl h1
        · exact Or.inr ⟨x, List.mem_cons_self x l, hxf, h1.symm⟩
        · exact Or.inr ⟨h2, List.mem_cons_of_mem _ hh2, hr2, ht2⟩
      · rintro (h1 | ⟨h2, hh2, hr2, ht2⟩)
        · exact Or.inl (Or.inl h1)
        · rcases List.mem_cons.1 hh2 with rfl | hh3
          · exact Or.inl (Or.inr ht2.symm)
          · exact Or.inr ⟨h2, hh3, hr2, ht2⟩

theorem mem_loadUnrevealedTokens (st : MonitorState) (t : Nat) :
    t ∈ (loadUnrevealedTokens st).unrevealedTokensSet ↔
      t ∈ st.unrevealedTokensSet ∨
        ∃ h ∈ st.store, h.isRevealed = false ∧ h.tokenId = t := by
  unfold loadUnrevealedTokens
  exact mem_loadFold st.store st.unrevealedTokensSet t

/-- Claim C7 amended: with no prior store record, a "Staked" event is
ignored, because the bootstrap load adds only tokens having a record with
revealed = false, and the handler is a no-op for tokens outside the
Working Set.  For a token that IS in the Working Set, a resolved fetch
with no level attribute yields exactly one reveal notification and a
store record with revealed = true; the image is not persisted by this
path (the created record carries no image). -/
theorem c7_no_record_and_resolved (fetch : Nat → FetchResult) (owner : String) (t : Nat)
    (st : MonitorState) (m : Metadata) :
    (t ∉ st.unrevealedTokensSet → handleStakingLog fetch owner t st = st) ∧
    ((∀ h ∈ st.store, h.tokenId ≠ t) → t ∉ st.unrevealedTokensSet →
      t ∉ (loadUnrevealedTokens st).unrevealedTokensSet) ∧
    (t ∈ st.unrevealedTokensSet → fetch t = FetchResult.ok m →
      m.image ≠ UNREVEALED_URL → levelOf m = none →
      (handleStakingLog fetch owner t st).tweets
          = st.tweets ++ [{ tokenId := toString t, owner := owner, image := m.image }] ∧
      isHeroRevealed (handleStakingLog fetch owner t st).store t = true ∧
      ((∀ h ∈ st.store, h.tokenId ≠ t) →
        Store.findHero (handleStakingLog fetch owner t st).store t
          = some { tokenId := t, isRevealed := true })) := by
  refine ⟨fun hni => ?_, fun hrec hni => ?_, fun hmem hf hi hl => ?_⟩
  · unfold handleStakingLog
    simp [hni]
  · intro hcontra
    rcases (mem_loadUnrevealedTokens st t).1 hcontra with h1 | ⟨h2, hh2, _, ht2⟩
    · exact hni h1
    · exact hrec h2 hh2 ht2
  · have hL : handleStakingLog fetch owner t st = stakingCallback fetch owner t st := by
      unfold handleStakingLog
      simp [hmem]
    have hiB : (m.image == UNREVEALED_URL) = false := by
      simp [hi]
    have hsup : levelSuppress (levelOf m) = false := by
      rw [hl]
      rfl
    have hC : stakingCallback fetch owner t st =
        { store := setHeroRevealed st.store t,
          unrevealedTokensSet := setDelete st.unrevealedTokensSet t,
          tweets := st.tweets ++
            [{ tokenId := toString t, owner := owner, image := m.image }] } := by
      unfold stakingCallback
      rw [hf]
      simp [hiB, hsup]
    rw [hL, hC]
    refine ⟨rfl, setHeroRevealed_self st.store t, fun hrec => ?_⟩
    have hany : (st.store.any (fun h => h.tokenId == t)) = false := by
      rw [List.any_eq_false]
      intro x hx
      simpa using hrec x hx
    exact findHero_setHeroRevealed_notfound st.store t hany

/-- Concrete runs of c7_no_record_and_resolved: token 42 absent from set
and store is ignored; token 42 in the set with a resolved image and no
level attribute gives one tweet, a revealed record, and no stored image. -/
theorem c7_no_record_and_resolved_witness :
    handleStakingLog
        (fun _ => FetchResult.ok
          { name := "Hero", description := "", image := "https://img/hero123.png",
            attributes := [] })
        "0xAA" 42 { store := [], unrevealedTokensSet := [], tweets := [] } =
      { store := [], unrevealedTokensSet := [], tweets := [] } ∧
    (handleStakingLog
        (fun _ => FetchResult.ok
          { name := "Hero", description := "", image := "https://img/hero123.png",
            attributes := [] })
        "0xAA" 42 { store := [], unrevealedTokensSet := [42], tweets := [] }).tweets
      = [{ tokenId := "42", owner := "0xAA", image := "https://img/hero123.png" }] ∧
    Store.findHero
        (handleStakingLog
          (fun _ => FetchResult.ok
            { name := "Hero", description := "", image := "https://img/hero123.png",
              attributes := [] })
          "0xAA" 42 { store := [], unrevealedTokensSet := [42], tweets := [] }).store 42
      = some { tokenId := 42, isRevealed := true } := by
  refine ⟨?_, ?_, ?_⟩
  · exact (c7_no_record_and_resolved _ "0xAA" 42 _
      { name := "Hero", description := "", image := "https://img/hero123.png",
        attributes := [] }).1 (by simp)
  · exact ((c7_no_record_and_resolved _ "0xAA" 42
      { store := [], unrevealedTokensSet := [42], tweets := [] }
      { name := "Hero", description := "", image := "https://img/hero123.png",
        attributes := [] }).2.2 (by simp) rfl (by decide) rfl).1
  · exact ((c7_no_record_and_resolved _ "0xAA" 42
      { store := [], unrevealedTokensSet := [42], tweets := [] }
      { name := "Hero", description := "", image := "https://img/hero123.png",
        attributes := [] }).2.2 (by simp) rfl (by decide) rfl).2.2
      (by intro h hh; simp at hh)

theorem restore_log_aux : ∀ (subs : List SubCallback) (st : MonitorState) (log : List Nat),
    (subs.foldl
        (fun acc sub =>
          match sub.run acc.1 with
          | some s2 => (s2, acc.2 ++ [sub.id])
          | none => (acc.1, acc.2 ++ [sub.id]))
        (st, log)).2 = log ++ subs.map (fun cb => cb.id)
  | [], _, log => by simp
  | sub :: rest, st, log => by
    rw [List.foldl_cons]
    cases hr : sub.run st with
    | some s2 =>
      simp only [hr]
      rw [restore_log_aux rest s2 (log ++ [sub.id])]
      simp
    | none =>
      simp only [hr]
      rw [restore_log_aux rest st (log ++ [sub.id])]
      simp

/-- Claim C8 amended: on reconnect every registered callback is invoked
exactly once, in registration order, a throwing callback being caught
without stopping the others; the staking monitor's reconnect reload then
ADDS the store's current revealed = false tokens to the Working Set while
retaining its pre-disconnect contents (the set is not rebuilt from
scratch; see the counterexample for a surviving stale entry). -/
theorem c8_replay_order_and_reload :
    (∀ (subs : List SubCallback) (st : MonitorState),
      (restoreSubscriptions subs st).2 = subs.map (fun cb => cb.id)) ∧
    (∀ (st : MonitorState) (t : Nat),
      t ∈ (loadUnrevealedTokens st).unrevealedTokensSet ↔
        t ∈ st.unrevealedTokensSet ∨
          ∃ h ∈ st.store, h.isRevealed = false ∧ h.tokenId = t) := by
  constructor
  · intro subs st
    unfold restoreSubscriptions
    simpa using restore_log_aux subs st []
  · intro st t
    exact mem_loadUnrevealedTokens st t

/-- Concrete run of c8_replay_order_and_reload: two callbacks, the second
throwing, are both invoked, in order. -/
theorem c8_replay_order_and_reload_witness :
    (restoreSubscriptions
        [{ id := 1, run := fun s => some s }, { id := 2, run := fun _ => none }]
        { store := [], unrevealedTokensSet := [], tweets := [] }).2 = [1, 2] :=
  c8_replay_order_and_reload.1
    [{ id := 1, run := fun s => some s }, { id := 2, run := fun _ => none }]
    { store := [], unrevealedTokensSet := [], tweets := [] }

/-- Claim C9: the wrapped handlers of watchEventWithErrorHandling never
propagate an error (both safe handlers always return ok), and the per-log
try/catch of the staking and death batch loops makes a throwing log leave
the state unchanged while its sibling logs are still processed. -/
theorem c9_errors_contained :
    (∀ (onLogs : Except String Unit) (onError : Option (String → Except String Unit)),
      safeOnLogs onLogs onError = Except.ok ()) ∧
    (∀ (onError : Option (String → Except String Unit)) (e : String),
      safeOnError onError e = Except.ok ()) ∧
    (∀ (fetch : Nat → FetchResult) (throws : StakedLog → Bool)
        (pre post : List StakedLog) (bad : StakedLog) (st : MonitorState),
      throws bad = true →
      processStakingLogs fetch throws (pre ++ bad :: post) st =
        processStakingLogs fetch throws post (processStakingLogs fetch throws pre st)) ∧
    (∀ (fetch : Nat → FetchResult) (throws : Nat → Bool)
        (pre post : List Nat) (bad : Nat) (deaths : List DeathTweet),
      throws bad = true →
      processDeathLogs fetch throws (pre ++ bad :: post) deaths =
        processDeathLogs fetch throws post (processDeathLogs fetch throws pre deaths)) := by
  refine ⟨fun onLogs onError => ?_, fun onError e => ?_,
    fun fetch throws pre post bad st hb => ?_, fun fetch throws pre post bad deaths hb => ?_⟩
  · cases onLogs with
    | ok u => rfl
    | error e2 =>
      cases onError with
      | none => rfl
      | some f =>
        unfold safeOnLogs
        cases hfe : f e2 <;> simp [hfe]
  · cases onError with
    | none => rfl
    | some f =>
      unfold safeOnError
      cases hfe : f e <;> simp [hfe]
  · unfold processStakingLogs
    rw [List.foldl_append, List.foldl_cons]
    simp [hb]
  · unfold processDeathLogs
    rw [List.foldl_append, List.foldl_cons]
    simp [hb]

/-- Concrete run of c9_errors_contained: a throwing onLogs handler is
contained, and a batch whose only log throws leaves the monitor state
unchanged. -/
theorem c9_errors_contained_witness :
    safeOnLogs (Except.error "boom") none = Except.ok () ∧
    processStakingLogs (fun _ => FetchResult.err) (fun _ => true)
        ([] ++ { owner := "0xA", tokenId := 1 } :: [])
        { store := [], unrevealedTokensSet := [], tweets := [] } =
      processStakingLogs (fun _ => FetchResult.err) (fun _ => true) []
        (processStakingLogs (fun _ => FetchResult.err) (fun _ => true) []
          { store := [], unrevealedTokensSet := [], tweets := [] }) :=
  ⟨c9_errors_contained.1 (Except.error "boom") none,
   c9_errors_contained.2.2.1 (fun _ => FetchResult.err) (fun _ => true) [] []
     { owner := "0xA", tokenId := 1 }
     { store := [], unrevealedTokensSet := [], tweets := [] } rfl⟩

theorem processJob_retry_eq (fetch : Nat → FetchResult) (db : String → DbOutcome)
    (s : Store) (job : RevealJob) :
    (processJob fetch db s job).2.2 =
      if jobThrew db s job then retryOrAbandon job else none := by
  unfold processJob jobThrew
  cases hdb : db job.tokenId with
  | failCheck => simp
  | ok =>
    by_cases hr : isHeroRevealed s (numOf job.tokenId) = true
    · simp [hr]
    · simp only [Bool.not_eq_true] at hr
      simp [hr]
  | failSet =>
    by_cases hr : isHeroRevealed s (numOf job.tokenId) = true
    · simp [hr]
    · simp only [Bool.not_eq_true] at hr
      simp [hr]

theorem processQueueOnce_queue_eq (fetch : Nat → FetchResult) (db : String → DbOutcome) :
    ∀ (pending : List RevealJob) (s : Store),
      (processQueueOnce fetch db s pending).2.2 = retriesOfCycle fetch db s pending
  | [], _ => rfl
  | job :: rest, s => by
    show (processJob fetch db s job).2.2.toList ++
        (processQueueOnce fetch db (processJob fetch db s job).1 rest).2.2 = _
    rw [processQueueOnce_queue_eq fetch db rest (processJob fetch db s job).1,
      processJob_retry_eq]
    simp only [retriesOfCycle]
    by_cases ht : jobThrew db s job = true
    · simp [ht]
    · simp only [Bool.not_eq_true] at ht
      simp [ht]

theorem mem_retriesOfCycle (fetch : Nat → FetchResult) (db : String → DbOutcome) :
    ∀ (pending : List RevealJob) (s : Store) (j2 : RevealJob),
      j2 ∈ retriesOfCycle fetch db s pending →
      ∃ j ∈ pending, j2.tokenId = j.tokenId ∧ j2.owner = j.owner ∧
        j2.retryCount = j.retryCount + 1 ∧ j.retryCount + 1 < MAX_RETRIES_PER_JOB ∧
        db j.tokenId ≠ DbOutcome.ok
  | [], _, _, h => by simp [retriesOfCycle] at h
  | job :: rest, s, j2, h => by
    unfold retriesOfCycle at h
    rcases List.mem_append.1 h with hhd | htl
    · have hthrew : jobThrew db s job = true := by
        by_cases ht : jobThrew db s job = true
        · exact ht
        · simp only [Bool.not_eq_true] at ht
          rw [ht] at hhd
          simp at hhd
      rw [hthrew] at hhd
      simp only [if_true] at hhd
      have hsome : retryOrAbandon job = some j2 := by
        cases hro : retryOrAbandon job with
        | none => rw [hro] at hhd; simp at hhd
        | some j3 =>
          rw [hro] at hhd
          simp only [Option.toList_some, List.mem_singleton] at hhd
          rw [hhd]
      unfold retryOrAbandon at hsome
      by_cases hlt : job.retryCount + 1 < MAX_RETRIES_PER_JOB
      · rw [if_pos hlt] at hsome
        have hj2 : j2 = { job with retryCount := job.retryCount + 1 } :=
          (Option.some.inj hsome).symm
        have hdbne : db job.tokenId ≠ DbOutcome.ok := by
          intro hdb
          unfold jobThrew at hthrew
          rw [hdb] at hthrew
          simp at hthrew
        subst hj2
        exact ⟨job, List.mem_cons_self job rest, rfl, rfl, rfl, hlt, hdbne⟩
      · rw [if_neg hlt] at hsome
        exact absurd hsome (by simp)
    · rcases mem_retriesOfCycle fetch db rest (processJob fetch db s job).1 j2 htl with
        ⟨j, hj, e1, e2, e3, e4, e5⟩
      exact ⟨j, List.mem_cons_of_mem _ hj, e1, e2, e3, e4, e5⟩

/-- Claim C10: a completed queue cycle replaces the pending queue with
exactly the jobs, computed from the snapshot it started with, whose
processing threw a store error and whose incremented retry count is below
the ceiling; every surviving job descends from a snapshot job with the
same pair and incremented count, and any pair enqueued after the snapshot
was taken (for which no snapshot job exists) is absent from the replaced
queue, the mid-cycle pushes being discarded by the final assignment. -/
theorem c10_cycle_replaces_queue (fetch : Nat → FetchResult) (db : String → DbOutcome)
    (s : Store) (snapshot : List RevealJob) (enqs : List (String × String)) :
    ((cycleWithMidEnqueues fetch db s snapshot enqs).2.2 =
      retriesOfCycle fetch db s snapshot) ∧
    (∀ j2 ∈ (cycleWithMidEnqueues fetch db s snapshot enqs).2.2,
      ∃ j ∈ snapshot, j2.tokenId = j.tokenId ∧ j2.owner = j.owner ∧
        j2.retryCount = j.retryCount + 1 ∧ j.retryCount + 1 < MAX_RETRIES_PER_JOB ∧
        db j.tokenId ≠ DbOutcome.ok) ∧
    (∀ tokenId owner : String,
      snapshot.any (fun j => j.tokenId == tokenId && j.owner == owner) = false →
      (cycleWithMidEnqueues fetch db s snapshot enqs).2.2.any
          (fun j => j.tokenId == tokenId && j.owner == owner) = false) := by
  have hcyc : (cycleWithMidEnqueues fetch db s snapshot enqs).2.2 =
      retriesOfCycle fetch db s snapshot := by
    show (processQueueOnce fetch db s snapshot).2.2 = _
    exact processQueueOnce_queue_eq fetch db snapshot s
  have hmem : ∀ j2 ∈ (cycleWithMidEnqueues fetch db s snapshot enqs).2.2,
      ∃ j ∈ snapshot, j2.tokenId = j.tokenId ∧ j2.owner = j.owner ∧
        j2.retryCount = j.retryCount + 1 ∧ j.retryCount + 1 < MAX_RETRIES_PER_JOB ∧
        db j.tokenId ≠ DbOutcome.ok := by
    intro j2 hj2
    rw [hcyc] at hj2
    exact mem_retriesOfCycle fetch db snapshot s j2 hj2
  refine ⟨hcyc, hmem, fun tokenId owner hsnap => ?_⟩
  cases hany : (cycleWithMidEnqueues fetch db s snapshot enqs).2.2.any
      (fun j => j.tokenId == tokenId && j.owner == owner) with
  | false => rfl
  | true =>
    rcases List.any_eq_true.1 hany with ⟨j2, hj2, hpj2⟩
    rcases hmem j2 hj2 with ⟨j, hj, e1, e2, _, _, _⟩
    simp only [Bool.and_eq_true, beq_iff_eq] at hpj2
    have : (fun j => j.tokenId == tokenId && j.owner == owner) j = true := by
      simp [← e1, ← e2, hpj2.1, hpj2.2]
    exact absurd this (List.any_eq_false.1 hsnap j hj)

/-- Concrete run of c10_cycle_replaces_queue: a pair enqueued mid-cycle,
absent from the snapshot, is absent from the replaced queue. -/
theorem c10_cycle_replaces_queue_witness :
    (cycleWithMidEnqueues (fun _ => FetchResult.err) (fun _ => DbOutcome.failCheck) []
        [{ tokenId := "1", owner := "0xA", retryCount := 0 }] [("2", "0xB")]).2.2.any
      (fun j => j.tokenId == "2" && j.owner == "0xB") = false :=
  (c10_cycle_replaces_queue (fun _ => FetchResult.err) (fun _ => DbOutcome.failCheck) []
    [{ tokenId := "1", owner := "0xA", retryCount := 0 }] [("2", "0xB")]).2.2
    "2" "0xB" (by decide)

end OchAlerts
